import Mathlib

/-!
Verification of the Livemarkup directive engine (src/livemarkup.js).

The source file contains two concatenated revisions of the engine.  They share
the directive parser, the expression/formatter pipeline, `getAction`, and the
`@if` action verbatim; they differ in the `Template` event channel (the first
revision reuses the root DOM element `$el` as the event emitter, so triggered
events bubble up the DOM tree; the second uses a detached `jQuery({})`
emitter) and in details of the `@value` action.  Each definition below names
the construct of the source it embeds.
-/

/-! ## Character and string helpers (JS `toLowerCase` on ASCII) -/

/-- JS `String.prototype.toLowerCase` on one character, restricted to the
ASCII range actually exercised by `getAction` (action names): `A`–`Z` map to
`a`–`z` by adding 32 to the code point, all other characters are unchanged. -/
def jsLowerChar (c : Char) : Char :=
  if 65 ≤ c.toNat ∧ c.toNat ≤ 90 then Char.ofNat (c.toNat + 32) else c

/-- JS `name.toLowerCase()` as used by `getAction` (ASCII model). -/
def jsToLower (s : String) : String :=
  String.mk (s.data.map jsLowerChar)

/-- Whether a character is an ASCII uppercase letter. -/
def upperAZ (c : Char) : Bool :=
  decide (65 ≤ c.toNat ∧ c.toNat ≤ 90)

/-- Whether a string contains an ASCII uppercase letter. -/
def hasUpper (s : String) : Bool :=
  s.data.any upperAZ

/-! ## Directive parser (`parseDirective`, identical in both revisions)

The attribute-name grammar is the regex `^@([a-zA-Z0-9\_]+)(?:\(([^\)]+)\))?$`:
an `@` prefix, a nonempty run of identifier characters, then optionally a
parenthesized nonempty parameter that may not contain `)`, then end of string.
The attribute value undergoes the shorthand expansion: the part after the
first `-> ` is wrapped into an appended `.format(...)` call (regex
`-> (.*)$`, first match, capture greedy to end of string), then a leading
run of `.` characters is stripped (regex `/^(\.+)/`). -/

/-- Character class `[a-zA-Z0-9_]` of the directive-name regex. -/
def isIdentChar (c : Char) : Bool :=
  c.isAlpha || c.isDigit || c == '_'

/-- Match of the name against `^@([a-zA-Z0-9\_]+)(?:\(([^\)]+)\))?$`, giving
the action name and the optional parameter.  The identifier run is maximal,
which coincides with the regex result because the only characters allowed to
follow it are `(` or end of string, neither of which is an identifier
character; likewise `([^\)]+)` is forced to end at the closing `)` that must
be the final character. -/
def parseDirectiveNameL (l : List Char) : Option (String × Option String) :=
  if l.head? = some '@' then
    let rest := l.tail
    let ident := rest.takeWhile isIdentChar
    let rem := rest.dropWhile isIdentChar
    if ident = [] then none
    else if rem = [] then some (String.mk ident, none)
    else if rem.head? = some '(' then
      let r2 := rem.tail
      let inner := r2.takeWhile (fun c => c != ')')
      let r3 := r2.dropWhile (fun c => c != ')')
      if inner = [] then none
      else if r3 = [')'] then some (String.mk ident, some (String.mk inner))
      else none
    else none
  else none

/-- First occurrence of the token `-> ` in a character list: returns the text
before it and the text after it (the regex `-> (.*)$` is not global and `.`
is modelled as any character, faithful for the newline-free attribute values
considered here). -/
def splitArrow : List Char → Option (List Char × List Char)
  | '-' :: '>' :: ' ' :: rest => some ([], rest)
  | c :: cs => (splitArrow cs).map (fun p => (c :: p.1, p.2))
  | [] => none

/-- Replacement text of the shorthand rewrite: the captured code becomes the
body of `.format(function(val) \x7b return (<code>); \x7d)`. -/
def formatWrapL (fn : List Char) : List Char :=
  ".format(function(val) \x7b return (".data ++ fn ++ "); \x7d)".data

/-- The `arrow-rewrite replace step` step of `parseDirective`. -/
def rewriteArrowL (l : List Char) : List Char :=
  match splitArrow l with
  | some (pre, fn) => pre ++ formatWrapL fn
  | none => l

/-- The `.replace(/^(\.+)/, '')` step of `parseDirective`: strip the leading
run of `.` characters. -/
def stripDotsL (l : List Char) : List Char :=
  l.dropWhile (fun c => c = '.')

/-- The full shorthand expansion applied to an attribute value by
`parseDirective`: arrow rewrite, then leading-dot strip. -/
def expandValue (s : String) : String :=
  String.mk (stripDotsL (rewriteArrowL s.data))

/-- Whether a string still contains the `-> ` token. -/
def hasArrow (s : String) : Bool :=
  (splitArrow s.data).isSome

/-- Result record of `parseDirective`: action name, optional parameter, and
the expanded value expression. -/
structure ParsedDirective where
  action : String
  param : Option String
  value : String
deriving DecidableEq, Repr

/-- The whole `parseDirective(name, value)`: name match, then value
expansion; `none` models the `return` without a value ("not a directive"). -/
def parseDirective (name value : String) : Option ParsedDirective :=
  match parseDirectiveNameL name.data with
  | none => none
  | some (a, p) => some ⟨a, p, expandValue value⟩

/-! ## Action registry and `getAction` -/

/-- The built-in actions of the first revision of the source
(`LM.actions`): `text`, `at`, `class`, `html`, `value`, `if`, `run`. -/
inductive ActionTag where
  | text
  | at
  | cls
  | html
  | value
  | if_
  | run
deriving DecidableEq, Repr

/-- The `LM.actions` table with its string keys as written in the source. -/
def builtinActions : List (String × ActionTag) :=
  [("text", ActionTag.text), ("at", ActionTag.at), ("class", ActionTag.cls),
   ("html", ActionTag.html), ("value", ActionTag.value), ("if", ActionTag.if_),
   ("run", ActionTag.run)]

/-- The source's `getAction(name)`: look up `LM.actions[name.toLowerCase()]`
and throw `"Livemarkup: No action named '<name>'"` when absent. -/
def getAction (actions : List (String × ActionTag)) (name : String) :
    Except String ActionTag :=
  match actions.find? (fun kv => kv.1 == jsToLower name) with
  | some kv => Except.ok kv.2
  | none =>
      Except.error ("Livemarkup: No action named \x27" ++ name ++ "\x27")

/-- JavaScript values as far as the `@value` render path inspects them:
`undefined`, strings, numbers, booleans, arrays. -/
inductive JsValue where
  | undef
  | str (s : String)
  | num (n : Int)
  | bool (b : Bool)
  | arr (xs : List JsValue)
deriving Repr

/-- The `_.isArray(val)` test. -/
def isArray : JsValue → Bool
  | JsValue.arr _ => true
  | _ => false

/-- The value-to-list coercion of the second revision's `@value` render:
`if (isMulti && !_.isArray(val)) val = [val];`. -/
def valueToList (isMulti : Bool) (val : JsValue) : JsValue :=
  if isMulti && !(isArray val) then JsValue.arr [val] else val

/-- The value-to-list coercion of the first revision's `@value` render, which
wraps unconditionally: `if (!_.isArray(val)) val = [val];`. -/
def valueToList1 (val : JsValue) : JsValue :=
  if !(isArray val) then JsValue.arr [val] else val

/-- Fixed data of one `@value` directive: the element the directive sits on
(`dir.$el`), the scope (that element alone, or the whole sibling group
`[name=...]` for radio/checkbox controls), and whether the expression
recorded a `\x7bmodel, field\x7d` pair (`dir.attrib`, set by the `attr`
modifier). -/
structure ValueBindEnv where
  ownEl : Nat
  scope : List Nat
  attrib : Bool
deriving DecidableEq, Repr

/-- Mutable state of the `@value` directive: the `dir.bound` latch and the
set of live `onchange` registrations, as (element, event-name) pairs. -/
structure ValueBindState where
  bound : Bool
  regs : List (Nat × String)
deriving DecidableEq, Repr

/-- The registrations created by `scope[on]('change click', onchange)` in the
first revision's `@value`: both a `change` and a `click` handler on every
element of the scope. -/
def attachBatch (scope : List Nat) : List (Nat × String) :=
  scope.flatMap (fun e => [(e, "change"), (e, "click")])

/-- One `onrender` invocation of the first revision's `@value`: when
`dir.attrib && !dir.bound`, set the latch and attach the onchange handlers;
otherwise leave the listener state unchanged. -/
def valueRenderStep (env : ValueBindEnv) (s : ValueBindState) : ValueBindState :=
  if env.attrib && !s.bound then
    { bound := true, regs := s.regs ++ attachBatch env.scope }
  else s

/-- The listener state after `n` renders of the `@value` directive, starting
from the freshly constructed directive (latch unset, nothing attached). -/
def valueRenderN (env : ValueBindEnv) : Nat → ValueBindState
  | 0 => { bound := false, regs := [] }
  | n + 1 => valueRenderStep env (valueRenderN env n)

/-- The destroy handler registered by the `@value` action:
`dir.$el.off('change', onchange)` removes the onchange registrations for the
`change` event on the directive's own element only. -/
def valueDestroyStep (env : ValueBindEnv) (s : ValueBindState) : ValueBindState :=
  { bound := s.bound,
    regs := s.regs.filter (fun r => !(r.1 == env.ownEl && r.2 == "change")) }

/-! ## The `@if` action (identical in both revisions)

At construction the action creates a placeholder text node, removes the
element, and builds one sub-Template `this.sub = LM($el)...` over it.  Each
render with a truthy value re-inserts the element and calls
`this.sub.render()`; each render with a falsy value calls
`this.sub.destroy()` and removes the element.  The trace below records these
calls; the single sub-Template is instance `0`. -/

/-- Observable events of the `@if` directive's lifecycle. -/
inductive IfEvent where
  | constructSub (id : Nat)
  | renderSub (id : Nat)
  | destroySub (id : Nat)
  | attachEl
  | detachEl
deriving DecidableEq, Repr

/-- Events of one `onrender` call of `Actions.if`, given the evaluated
governing value. -/
def ifRenderEvents (v : Bool) : List IfEvent :=
  if v then [IfEvent.attachEl, IfEvent.renderSub 0]
  else [IfEvent.destroySub 0, IfEvent.detachEl]

/-- The full event trace of an `@if` directive: construction (element
detached, the one sub-Template built), then one `onrender` per entry of the
list of successive governing values. -/
def ifTrace (vs : List Bool) : List IfEvent :=
  [IfEvent.detachEl, IfEvent.constructSub 0] ++ vs.flatMap ifRenderEvents

/-- Number of sub-Template constructions in a trace. -/
def countConstructs (tr : List IfEvent) : Nat :=
  tr.countP (fun e => match e with | IfEvent.constructSub _ => true | _ => false)

/-- Number of sub-Template destructions in a trace. -/
def countDestroys (tr : List IfEvent) : Nat :=
  tr.countP (fun e => match e with | IfEvent.destroySub _ => true | _ => false)

/-- Whether some sub-Template instance is rendered at a point of the trace
strictly after a destruction of that same instance. -/
def hasRenderAfterDestroy : List IfEvent → Bool
  | [] => false
  | IfEvent.destroySub i :: rest =>
      rest.any (fun e => e == IfEvent.renderSub i) || hasRenderAfterDestroy rest
  | _ :: rest => hasRenderAfterDestroy rest

/-! ## The first revision's Template event channel (`$el` as emitter)

`Template.prototype.on` binds a handler on the root element `$el`;
`Template.prototype.trigger` calls `$el.trigger`, and jQuery custom events
bubble: the handlers on the element run first, then the handlers on each DOM
ancestor in turn.  `Template.prototype.destroy` is `trigger('destroy')`. -/

/-- The element chain walked by a bubbling jQuery trigger: the element, then
its ancestors.  `fuel` bounds the walk (any number at least the tree depth
is exact). -/
def ancestorChain (parent : Nat → Option Nat) : Nat → Nat → List Nat
  | 0, e => [e]
  | fuel + 1, e =>
      e :: (match parent e with
            | some p => ancestorChain parent fuel p
            | none => [])

/-- Handler registrations on DOM elements: (element, event name, handler). -/
def templateOnV1 (regs : List (Nat × String × Nat)) (root : Nat) (ev : String)
    (h : Nat) : List (Nat × String × Nat) :=
  regs ++ [(root, ev, h)]

/-- The handlers a bubbling `$el.trigger(ev)` invokes, in order: for the
element and then each ancestor, every registration for `ev` bound there. -/
def triggerInvoked (parent : Nat → Option Nat) (fuel : Nat)
    (regs : List (Nat × String × Nat)) (el : Nat) (ev : String) : List Nat :=
  (ancestorChain parent fuel el).flatMap
    (fun n => (regs.filter (fun r => r.1 == n && r.2.1 == ev)).map (fun r => r.2.2))

/-- `Template.prototype.destroy` of the first revision: trigger `destroy` on
the template's root element, with bubbling.  Returns the handlers invoked. -/
def templateDestroyV1 (parent : Nat → Option Nat) (fuel : Nat)
    (regs : List (Nat × String × Nat)) (root : Nat) : List Nat :=
  triggerInvoked parent fuel regs root "destroy"

/-! ## The `format` modifier and `Directive.prototype.getValue` -/

/-- The receiver a formatter can observe as `this`. -/
inductive EvalThis where
  | model (m : Nat)
  | dir (d : Nat)
deriving DecidableEq, Repr

/-- Values flowing through a formatter chain (seeded with `null`). -/
inductive FVal where
  | null
  | str (s : String)
  | num (n : Int)
deriving DecidableEq, Repr

/-- A formatter as a function of its receiver (`this`) and its argument. -/
def Formatter : Type := EvalThis → FVal → FVal

/-- A directive as the formatter machinery sees it: the model captured at
construction (`this.model = template.model`), the directive's own identity,
and the formatter chain. -/
structure FmtDirective where
  model : Option Nat
  selfId : Nat
  formatters : List Formatter

/-- The proxying in `Modifiers.format`: when the directive has a model, the
pushed function is `$.proxy(fn, model)` (receiver fixed to the model,
argument passed through); otherwise the function is pushed as is. -/
def wrapFormat (mo : Option Nat) (fn : Formatter) : Formatter :=
  match mo with
  | some m => fun _ v => fn (EvalThis.model m) v
  | none => fn

/-- `Modifiers.format(fn)`: push the (possibly proxied) formatter onto the
directive's chain. -/
def pushFormat (d : FmtDirective) (fn : Formatter) : FmtDirective :=
  { d with formatters := d.formatters ++ [wrapFormat d.model fn] }

/-- `Directive.prototype.getValue`: fold the formatter chain over the seed
`null`, invoking each stored function with `fn.apply(dir, [val])`, i.e. with
the directive as the call-time receiver (a proxied formatter ignores it). -/
def getValue (d : FmtDirective) : FVal :=
  d.formatters.foldl (fun v f => f (EvalThis.dir d.selfId) v) FVal.null

/-- The receiver a formatter pushed by `format` effectively runs with. -/
def effThis (mo : Option Nat) (sid : Nat) : EvalThis :=
  match mo with
  | some m => EvalThis.model m
  | none => EvalThis.dir sid

/-! ## The `@each` action (plain-sequence branch) -/

/-- Modelled from the spec: `Actions.each` is absent from src/livemarkup.js
(neither revision defines an `each` action, so only the spec's section 4.6
describes it; the repository Readme declares `@each` but its implementation
is not among the given sources).  The parameter grammar is
`[key,] value in <source-expression>` with `key`/`value` bare identifiers.
This splits at the first ` in ` keyword and at the first `,` of the
left-hand side. -/
def splitInKeyword : List Char → Option (List Char × List Char)
  | ' ' :: 'i' :: 'n' :: ' ' :: rest => some ([], rest)
  | c :: cs => (splitInKeyword cs).map (fun p => (c :: p.1, p.2))
  | [] => none

/-- Modelled from the spec: first-comma split of the `key, value` part of an
`@each` parameter. -/
def splitComma : List Char → Option (List Char × List Char)
  | ',' :: rest => some ([], rest)
  | c :: cs => (splitComma cs).map (fun p => (c :: p.1, p.2))
  | [] => none

/-- Spaces stripped from both ends of an identifier token. -/
def trimSpaces (l : List Char) : List Char :=
  ((l.dropWhile (fun c => c = ' ')).reverse.dropWhile (fun c => c = ' ')).reverse

/-- Modelled from the spec: parse an `@each` parameter into optional key
identifier, value identifier, and source-expression text. -/
def parseEachParam (s : String) : Except String (Option String × String × String) :=
  match splitInKeyword s.data with
  | none => Except.error "each: expected \x27value in expression\x27"
  | some (lhs, rhs) =>
      match splitComma lhs with
      | some (k, v) =>
          Except.ok (some (String.mk (trimSpaces k)),
            (String.mk (trimSpaces v), String.mk rhs))
      | none => Except.ok (none, (String.mk (trimSpaces lhs), String.mk rhs))

/-- Modelled from the spec: the per-item blueprint of an `@each` directive,
here an element tag together with the value of its `@text` directive
attribute (an identifier resolved against the sub-Template's locals). -/
structure EachBlueprint where
  tag : String
  textExpr : Option String
deriving DecidableEq, Repr

/-- Modelled from the spec: an instantiated per-item sub-Template, carrying
the locals bound for the item and the rendered element. -/
structure EachSub where
  locals : List (String × String)
  tag : String
  text : String
deriving DecidableEq, Repr

/-- Lookup of an identifier in a locals mapping. -/
def lookupLocal (ls : List (String × String)) (k : String) : Option String :=
  (ls.find? (fun kv => kv.1 == k)).map (fun kv => kv.2)

/-- Modelled from the spec: `@each` requires exactly one child element as the
per-item blueprint; any other child count is a construction-time error. -/
def eachBlueprintOf (children : List EachBlueprint) : Except String EachBlueprint :=
  match children with
  | [bp] => Except.ok bp
  | _ => Except.error "each: expected exactly one child element"

/-- Modelled from the spec: rendering one item of a plain sequence — clone
the blueprint, bind the value identifier as a local, and render the clone
(its `@text` directive sets the element text to the local's value). -/
def renderEachItem (bp : EachBlueprint) (valName : String) (item : String) : EachSub :=
  let ls := [(valName, item)]
  { locals := ls, tag := bp.tag,
    text := match bp.textExpr with
            | some e => (lookupLocal ls e).getD ""
            | none => "" }

/-- Modelled from the spec: the plain-sequence branch of `@each` render —
one sub-Template per element of the sequence, appended in order. -/
def renderEachPlain (bp : EachBlueprint) (valName : String) (xs : List String) :
    List EachSub :=
  xs.map (renderEachItem bp valName)

/-! ## Helper lemmas -/

/-- Data of a constructed string. -/
@[simp] theorem data_mk (l : List Char) : (String.mk l).data = l := rfl

/-- A string is the constructor applied to its data. -/
theorem mk_data (s : String) : String.mk s.data = s := rfl

/-- Appending strings appends their character data. -/
theorem strDataAppend (s t : String) : (s ++ t).data = s.data ++ t.data := by
  cases s
  cases t
  rfl

/-- Round trip of `Char.ofNat` on a valid code point. -/
theorem charToNat_ofNat_of_valid (n : Nat) (h : n.isValidChar) :
    (Char.ofNat n).toNat = n := by
  unfold Char.ofNat
  rw [dif_pos h]
  rfl

/-- Lowercasing a character never yields an ASCII uppercase letter. -/
theorem jsLowerChar_not_upper (c : Char) : upperAZ (jsLowerChar c) = false := by
  unfold jsLowerChar upperAZ
  by_cases h : 65 ≤ c.toNat ∧ c.toNat ≤ 90
  · rw [if_pos h]
    have hv : (c.toNat + 32).isValidChar := Or.inl (by omega)
    rw [charToNat_ofNat_of_valid _ hv]
    simp only [decide_eq_false_iff_not]
    omega
  · rw [if_neg h]
    simp only [decide_eq_false_iff_not]
    exact h

/-- Lowercasing a character is idempotent. -/
theorem jsLowerChar_idem (c : Char) : jsLowerChar (jsLowerChar c) = jsLowerChar c := by
  have h := jsLowerChar_not_upper c
  unfold upperAZ at h
  rw [decide_eq_false_iff_not] at h
  show (if 65 ≤ (jsLowerChar c).toNat ∧ (jsLowerChar c).toNat ≤ 90 then
          Char.ofNat ((jsLowerChar c).toNat + 32)
        else jsLowerChar c) = jsLowerChar c
  rw [if_neg h]

/-- Lowercasing a character list is idempotent. -/
theorem mapLower_idem (l : List Char) :
    (l.map jsLowerChar).map jsLowerChar = l.map jsLowerChar := by
  induction l with
  | nil => rfl
  | cons a as ih => simp [jsLowerChar_idem, ih]

/-- `jsToLower` is idempotent. -/
theorem jsToLower_idem (s : String) : jsToLower (jsToLower s) = jsToLower s := by
  unfold jsToLower
  exact congrArg String.mk (mapLower_idem s.data)

/-- A lowercased string contains no ASCII uppercase letter. -/
theorem hasUpper_jsToLower (s : String) : hasUpper (jsToLower s) = false := by
  unfold hasUpper jsToLower
  rw [data_mk, List.any_map, List.any_eq_false]
  intro x _
  simp [Function.comp, jsLowerChar_not_upper x]

/-- `takeWhile` runs to the first failing element. -/
theorem takeWhile_append_stop {α : Type} {p : α → Bool} :
    ∀ (l₁ : List α) (c : α) (l₂ : List α),
      (∀ x ∈ l₁, p x = true) → p c = false →
      (l₁ ++ c :: l₂).takeWhile p = l₁ := by
  intro l₁
  induction l₁ with
  | nil =>
      intro c l₂ _ hc
      simp [List.takeWhile_cons, hc]
  | cons a as ih =>
      intro c l₂ h hc
      have ha : p a = true := h a (by simp)
      simp only [List.cons_append, List.takeWhile_cons, ha, if_true]
      rw [ih c l₂ (fun x hx => h x (by simp [hx])) hc]

/-- `dropWhile` drops up to the first failing element. -/
theorem dropWhile_append_stop {α : Type} {p : α → Bool} :
    ∀ (l₁ : List α) (c : α) (l₂ : List α),
      (∀ x ∈ l₁, p x = true) → p c = false →
      (l₁ ++ c :: l₂).dropWhile p = c :: l₂ := by
  intro l₁
  induction l₁ with
  | nil =>
      intro c l₂ _ hc
      simp [List.dropWhile_cons, hc]
  | cons a as ih =>
      intro c l₂ h hc
      have ha : p a = true := h a (by simp)
      simp only [List.cons_append, List.dropWhile_cons, ha, if_true]
      exact ih c l₂ (fun x hx => h x (by simp [hx])) hc

/-- `dropWhile` is idempotent. -/
theorem dropWhile_idem {α : Type} (p : α → Bool) :
    ∀ l : List α, (l.dropWhile p).dropWhile p = l.dropWhile p := by
  intro l
  induction l with
  | nil => rfl
  | cons a as ih =>
      by_cases ha : p a = true
      · simp [List.dropWhile_cons, ha, ih]
      · have ha' : p a = false := by simpa using ha
        simp [List.dropWhile_cons, ha']

/-- Evaluation of the directive-name match on a well-formed parenthesized
name `@<ident>(<param>)`. -/
theorem parseName_paren (a p : List Char)
    (h1 : a ≠ []) (h2 : ∀ c ∈ a, isIdentChar c = true)
    (h3 : p ≠ []) (h4 : ∀ c ∈ p, (c != ')') = true) :
    parseDirectiveNameL ('@' :: (a ++ '(' :: (p ++ [')'])))
      = some (String.mk a, some (String.mk p)) := by
  simp only [parseDirectiveNameL, List.head?_cons, List.tail_cons]
  rw [if_pos trivial]
  rw [takeWhile_append_stop a '(' (p ++ [')']) h2 (by decide)]
  rw [dropWhile_append_stop a '(' (p ++ [')']) h2 (by decide)]
  rw [if_neg h1, if_neg (List.cons_ne_nil _ _)]
  simp only [List.head?_cons, List.tail_cons]
  rw [if_pos trivial]
  rw [takeWhile_append_stop p ')' [] h4 (by decide)]
  rw [dropWhile_append_stop p ')' [] h4 (by decide)]
  rw [if_neg h3, if_pos rfl]

/-- Evaluation of the directive-name match on a colon-delimited name
`@<ident>:<param>`: no match. -/
theorem parseName_colon (a p : List Char)
    (h1 : a ≠ []) (h2 : ∀ c ∈ a, isIdentChar c = true) :
    parseDirectiveNameL ('@' :: (a ++ ':' :: p)) = none := by
  simp only [parseDirectiveNameL, List.head?_cons, List.tail_cons]
  rw [if_pos trivial]
  rw [takeWhile_append_stop a ':' p h2 (by decide)]
  rw [dropWhile_append_stop a ':' p h2 (by decide)]
  rw [if_neg h1, if_neg (List.cons_ne_nil _ _)]
  simp only [List.head?_cons]
  rw [if_neg (by decide)]

/-- A name that does not start with the `@` prefix never matches. -/
theorem parseName_no_at (c : Char) (cs : List Char) (hc : c ≠ '@') :
    parseDirectiveNameL (c :: cs) = none := by
  simp only [parseDirectiveNameL, List.head?_cons]
  rw [if_neg (by simp [hc])]

/-- Folding `format` calls onto a directive appends the proxied formatters. -/
theorem foldl_pushFormat (mo : Option Nat) (sid : Nat) (acc : List Formatter)
    (fns : List Formatter) :
    fns.foldl pushFormat ⟨mo, sid, acc⟩ = ⟨mo, sid, acc ++ fns.map (wrapFormat mo)⟩ := by
  induction fns generalizing acc with
  | nil => simp
  | cons f fs ih =>
      simp only [List.foldl_cons, List.map_cons, pushFormat]
      rw [ih (acc ++ [wrapFormat mo f])]
      simp [List.append_assoc]

/-! ## Claim theorems -/

/-- C1 (code bug evidence): the `@if` action builds exactly one sub-Template,
at directive construction; rendering the governing values `true, false, true`
performs one destruction and then renders the already destroyed sub-Template
again — not the two fresh constructions and two destructions the claim
requires. -/
theorem C1_if_single_sub_reused :
    countConstructs (ifTrace [true, false, true]) = 1 ∧
    countDestroys (ifTrace [true, false, true]) = 1 ∧
    hasRenderAfterDestroy (ifTrace [true, false, true]) = true := by
  decide

/-- C2 (code bug evidence): in the first revision's Template, whose event
channel is the root element itself, destroying a sub-Template whose root
(element 1) is attached beneath the ancestor's root (element 0) invokes the
destroy handler (handler 100) that the ancestor registered on its own root —
the destroy signal bubbles upward, contrary to the claim. -/
theorem C2_sub_destroy_bubbles_to_ancestor :
    templateDestroyV1 (fun e => if e = 1 then some 0 else none) 2
      (templateOnV1 [] 0 "destroy" 100) 1 = [100] := by
  decide

/-- C3 (spec-modelled): an `@each` over the plain sequence `["a","b","c"]`
with the single blueprint `<li @text='val'>` parses its parameter, accepts
the single child, and renders three sub-Templates in order with texts `a`,
`b`, `c`, each binding the value identifier `val` as a local. -/
theorem C3_each_plain_sequence_render :
    parseEachParam "val in list" = Except.ok (none, ("val", "list")) ∧
    eachBlueprintOf [⟨"li", some "val"⟩] = Except.ok ⟨"li", some "val"⟩ ∧
    (renderEachPlain ⟨"li", some "val"⟩ "val" ["a", "b", "c"]).map
        (fun s => (s.tag, s.text)) = [("li", "a"), ("li", "b"), ("li", "c")] ∧
    (renderEachPlain ⟨"li", some "val"⟩ "val" ["a", "b", "c"]).map
        (fun s => s.locals)
      = [[("val", "a")], [("val", "b")], [("val", "c")]] := by
  exact ⟨rfl, rfl, by decide, by decide⟩

/-- C4 counterexample: the `@value` coercion for a multi-valued control maps
an undefined evaluated value to the one-element list `[undefined]`, not to
the empty list the claim requires. -/
theorem C4_undefined_wraps_not_empty :
    valueToList true JsValue.undef = JsValue.arr [JsValue.undef] ∧
    valueToList true JsValue.undef ≠ JsValue.arr [] := by
  refine ⟨rfl, ?_⟩
  intro h
  rw [show valueToList true JsValue.undef = JsValue.arr [JsValue.undef] from rfl] at h
  injection h with h2
  simp at h2

/-- C4 (amended): the value-to-list coercion of the `@value` render wraps
every non-array evaluated value — the undefined value included — as a
single-element list, in both revisions of the action. -/
theorem C4_value_coercion_wraps_scalars (v : JsValue) (h : isArray v = false) :
    valueToList true v = JsValue.arr [v] ∧ valueToList1 v = JsValue.arr [v] := by
  unfold valueToList valueToList1
  rw [h]
  exact ⟨rfl, rfl⟩

/-- C4 witness: the amended coercion statement at the undefined value. -/
theorem C4_value_coercion_wraps_scalars_witness :
    isArray JsValue.undef = false ∧
    (valueToList true JsValue.undef = JsValue.arr [JsValue.undef] ∧
     valueToList1 JsValue.undef = JsValue.arr [JsValue.undef]) :=
  ⟨rfl, C4_value_coercion_wraps_scalars JsValue.undef rfl⟩

/-- C5 counterexample: the parser does not recognize the colon-delimited form
`@at:type` at all (it is reported as not a directive), while the
parenthesized form `@at(type)` yields the action/param pair — so the two
forms do not produce the same result. -/
theorem C5_colon_form_not_recognized :
    parseDirective "@at:type" "attr(\"x\")" = none ∧
    parseDirective "@at(type)" "attr(\"x\")"
      = some ⟨"at", some "type", "attr(\"x\")"⟩ := by
  constructor <;> decide

/-- C5 (amended): an attribute name of the parenthesized form
`@<action>(<param>)` yields that action and parameter, while an attribute
name of the colon-delimited form `@<action>:<param>` is reported as not a
directive — the two forms do not return the same result — and a name lacking
the `@` prefix is likewise reported as not a directive. -/
theorem C5_directive_grammar :
    (∀ a p v : String, a.data ≠ [] → (∀ c ∈ a.data, isIdentChar c = true) →
       p.data ≠ [] → (∀ c ∈ p.data, (c != ')') = true) →
       parseDirective ("@" ++ a ++ "(" ++ p ++ ")") v
         = some ⟨a, some p, expandValue v⟩) ∧
    (∀ a p v : String, a.data ≠ [] → (∀ c ∈ a.data, isIdentChar c = true) →
       parseDirective ("@" ++ a ++ ":" ++ p) v = none) ∧
    (∀ (c : Char) (cs : List Char), c ≠ '@' → parseDirectiveNameL (c :: cs) = none) := by
  refine ⟨?_, ?_, fun c cs hc => parseName_no_at c cs hc⟩
  · intro a p v h1 h2 h3 h4
    unfold parseDirective
    have e : ("@" ++ a ++ "(" ++ p ++ ")").data
        = '@' :: (a.data ++ '(' :: (p.data ++ [')'])) := by
      rw [strDataAppend, strDataAppend, strDataAppend, strDataAppend]
      show ['@'] ++ a.data ++ ['('] ++ p.data ++ [')'] = _
      simp [List.append_assoc]
    rw [e, parseName_paren a.data p.data h1 h2 h3 h4]
  · intro a p v h1 h2
    unfold parseDirective
    have e : ("@" ++ a ++ ":" ++ p).data = '@' :: (a.data ++ ':' :: p.data) := by
      rw [strDataAppend, strDataAppend, strDataAppend]
      show ['@'] ++ a.data ++ [':'] ++ p.data = _
      simp [List.append_assoc]
    rw [e, parseName_colon a.data p.data h1 h2]

/-- C5 witness: the amended grammar statement at concrete names. -/
theorem C5_directive_grammar_witness :
    parseDirective ("@" ++ "at" ++ "(" ++ "type" ++ ")") "m"
      = some ⟨"at", some "type", expandValue "m"⟩ ∧
    parseDirective ("@" ++ "at" ++ ":" ++ "type") "m" = none ∧
    parseDirectiveNameL ('x' :: []) = none :=
  ⟨C5_directive_grammar.1 "at" "type" "m" (by decide) (by decide) (by decide) (by decide),
   C5_directive_grammar.2.1 "at" "type" "m" (by decide) (by decide),
   C5_directive_grammar.2.2 'x' [] (by decide)⟩

/-- The arrow rewrite is the identity on text without the arrow token. -/
theorem rewriteArrow_of_none (l : List Char) (h : splitArrow l = none) :
    rewriteArrowL l = l := by
  unfold rewriteArrowL
  rw [h]

/-- C6 counterexample: the shorthand expansion is not idempotent on every
expanded form — when the code after the arrow itself contains the `-> `
token (here inside a string literal), a second expansion rewrites the
already-expanded expression again. -/
theorem C6_expansion_not_idempotent :
    expandValue (expandValue "-> \"a -> b\"") ≠ expandValue "-> \"a -> b\"" := by
  decide

/-- C6 (amended): the shorthand expansion is idempotent on every expanded
form that no longer contains the `-> ` token: a second application of the
arrow rewrite finds nothing to rewrite and the leading-dot strip is
idempotent. -/
theorem C6_expansion_idempotent_without_arrow (s : String)
    (h : hasArrow (expandValue s) = false) :
    expandValue (expandValue s) = expandValue s := by
  have hn : splitArrow (stripDotsL (rewriteArrowL s.data)) = none := by
    cases he : splitArrow (stripDotsL (rewriteArrowL s.data)) with
    | none => rfl
    | some q =>
        have h' : (splitArrow (stripDotsL (rewriteArrowL s.data))).isSome = false := h
        rw [he] at h'
        simp at h'
  show String.mk (stripDotsL (rewriteArrowL (stripDotsL (rewriteArrowL s.data))))
      = String.mk (stripDotsL (rewriteArrowL s.data))
  rw [rewriteArrow_of_none (stripDotsL (rewriteArrowL s.data)) hn]
  unfold stripDotsL
  rw [dropWhile_idem]

/-- C6 witness: the amended idempotence statement at a concrete well-formed
directive value using the arrow shorthand. -/
theorem C6_expansion_idempotent_without_arrow_witness :
    hasArrow (expandValue "attr(\"x\") -> val") = false ∧
    expandValue (expandValue "attr(\"x\") -> val") = expandValue "attr(\"x\") -> val" :=
  ⟨by decide, C6_expansion_idempotent_without_arrow "attr(\"x\") -> val" (by decide)⟩

/-- C7 counterexample: for a single text control (element 0) whose expression
recorded a model/field pair, rendering once attaches the onchange handler for
both the `change` and the `click` events, but the destroy handler removes
only the `change` registration on the directive's element — after destroy the
`click` registration of that listener survives, so the listener is not
removed when the owning Template is destroyed. -/
theorem C7_click_listener_survives_destroy :
    (valueDestroyStep ⟨0, [0], true⟩ (valueRenderN ⟨0, [0], true⟩ 1)).regs
      = [(0, "click")] ∧
    (valueDestroyStep ⟨0, [0], true⟩ (valueRenderN ⟨0, [0], true⟩ 1)).regs ≠ [] := by
  constructor <;> decide

/-- C7 (amended): when the expression recorded a model/field pair, the
`@value` change listener is attached exactly once across any number of
renders — latched, and only from the first render on (no registration before
it); when no pair was recorded, no listener is ever attached; on destroy only
the `change` registration on the directive's own element is removed, while
`click` registrations and registrations on sibling-group elements persist. -/
theorem C7_value_listener_lifecycle (env : ValueBindEnv) (n : Nat) :
    valueRenderN env 0 = { bound := false, regs := [] } ∧
    (env.attrib = false → valueRenderN env n = { bound := false, regs := [] }) ∧
    (env.attrib = true → 1 ≤ n →
      valueRenderN env n = { bound := true, regs := attachBatch env.scope }) ∧
    (env.attrib = true → 1 ≤ n →
      (valueDestroyStep env (valueRenderN env n)).regs
        = (attachBatch env.scope).filter
            (fun r => !(r.1 == env.ownEl && r.2 == "change"))) := by
  have hfalse : env.attrib = false →
      ∀ m : Nat, valueRenderN env m = { bound := false, regs := [] } := by
    intro ha m
    induction m with
    | zero => rfl
    | succ k ih =>
        show valueRenderStep env (valueRenderN env k) = _
        rw [ih]
        unfold valueRenderStep
        rw [ha]
        rfl
  have htrue : env.attrib = true → ∀ m : Nat, 1 ≤ m →
      valueRenderN env m = { bound := true, regs := attachBatch env.scope } := by
    intro ha m
    induction m with
    | zero => intro h0; exact absurd h0 (by decide)
    | succ k ih =>
        intro _
        show valueRenderStep env (valueRenderN env k) = _
        cases k with
        | zero =>
            unfold valueRenderStep
            rw [show valueRenderN env 0 = { bound := false, regs := [] } from rfl]
            rw [ha]
            simp
        | succ j =>
            rw [ih (by omega)]
            unfold valueRenderStep
            rw [ha]
            simp
  refine ⟨rfl, fun ha => hfalse ha n, fun ha hn => htrue ha n hn, fun ha hn => ?_⟩
  rw [htrue ha n hn]
  rfl

/-- C7 witness: the amended lifecycle statement for a radio-style sibling
group (directive element 0, scope elements 0 and 1), two renders, then
destroy. -/
theorem C7_value_listener_lifecycle_witness :
    valueRenderN ⟨0, [0, 1], true⟩ 2
      = { bound := true, regs := attachBatch [0, 1] } ∧
    (valueDestroyStep ⟨0, [0, 1], true⟩ (valueRenderN ⟨0, [0, 1], true⟩ 2)).regs
      = (attachBatch [0, 1]).filter (fun r => !(r.1 == 0 && r.2 == "change")) :=
  ⟨(C7_value_listener_lifecycle ⟨0, [0, 1], true⟩ 2).2.2.1 rfl (by decide),
   (C7_value_listener_lifecycle ⟨0, [0, 1], true⟩ 2).2.2.2 rfl (by decide)⟩

/-- C9: action lookup lowercases the parsed action identifier before
consulting the registry — `@TEXT` resolves to the `text` action, lookup of
any name agrees with lookup of its lowercased form, and a lowercased lookup
key never contains an uppercase letter, so an action registered under a name
with an uppercase letter can never be matched. -/
theorem C9_action_lookup_lowercases :
    getAction builtinActions "TEXT" = Except.ok ActionTag.text ∧
    (∀ name : String,
       (getAction builtinActions name).toOption
         = (getAction builtinActions (jsToLower name)).toOption) ∧
    (∀ name : String, hasUpper (jsToLower name) = false) := by
  refine ⟨rfl, ?_, fun name => hasUpper_jsToLower name⟩
  intro name
  unfold getAction
  rw [jsToLower_idem]
  cases h : builtinActions.find? (fun kv => kv.1 == jsToLower name) with
  | none => rfl
  | some kv => rfl

/-- C10: every formatter appended through the `format` modifier runs with the
directive's model as its receiver when a model was bound at directive
construction time, and with the directive itself as its receiver otherwise —
`getValue` of a chain built by `format` calls equals folding the raw
formatter functions with that effective receiver. -/
theorem C10_format_receiver_binding (mo : Option Nat) (sid : Nat)
    (fns : List Formatter) :
    getValue (fns.foldl pushFormat ⟨mo, sid, []⟩)
      = fns.foldl (fun v fn => fn (effThis mo sid) v) FVal.null := by
  rw [foldl_pushFormat mo sid [] fns]
  unfold getValue
  simp only [List.nil_append]
  rw [List.foldl_map]
  congr 1
  funext v fn
  cases mo with
  | some m => rfl
  | none => rfl
